import Mathlib

/-!
Verification of the `topic_service` repository (files `make_data.py` and
`service.py`) against its natural-language specification.

The development shallowly embeds the Python sources:

* `make_data.py`'s `__main__` block (argument checking, the call to
  `Dictionary.filter_extremes`, and the set of output paths it writes) is
  embedded as `mainStep` / `outputFiles`.
* `service.py`'s `TopicService` (class attributes `id2word`, `corpus`,
  `lda`, and the two HTTP handlers `index` and `topic`) is embedded as the
  structure `TopicService` with pure handler functions.
* The gensim library functions the repository calls but does not contain
  (`Dictionary.filter_extremes`, `Dictionary.doc2bow`,
  `gensim.utils.simple_tokenize`, `LdaModel.__getitem__`,
  `LdaModel.show_topic`) are modelled from the specification's contracts,
  as noted on each definition.

Machine integers do not matter here (all counts are small non-negative
integers), so they are embedded as `Nat`; the fractional threshold
`no_above` and the model weights are embedded as `ℚ`.
-/

set_option maxRecDepth 4000

namespace TopicSpec

/-! ## Offline CLI: `make_data.py` `__main__` -/

/-- Embeds `DEFAULT_DICT_SIZE = 100000` (`make_data.py` line 58). -/
def DEFAULT_DICT_SIZE : Nat := 100000

/-- Embeds `os.path.dirname` for POSIX paths: everything before the final
slash, with trailing slashes stripped unless the head is all slashes. -/
def dirname (s : String) : String :=
  let cs := s.toList
  let head := (cs.reverse.dropWhile (fun c => !(c == '/'))).reverse
  if head.all (fun c => c == '/') then String.mk head
  else String.mk ((head.reverse.dropWhile (fun c => c == '/')).reverse)

/-- Embeds the set of file paths the pipeline writes, in program order
(`make_data.py` lines 93, 97-98, 103, 111, 114, 119, 122-123).  The
document-id → title map is written to the literal relative path
`doc_index.pickle.bz2` (line 93), and the `Similarity` shard files are
keyed by the literal `"wiki_index"` (line 122); every other file is keyed
by the CLI's `OUTPUT_PREFIX` argument `outp`. -/
def outputFiles (outp : String) : List String :=
  [ "doc_index.pickle.bz2"
  , outp ++ "_bow.mm"
  , outp ++ "_bow.mm.index"
  , outp ++ "_bow.mm.metadata.cpickle"
  , outp ++ "_wordids.txt.bz2"
  , outp ++ "_corpus.pkl.bz2"
  , outp ++ ".tfidf_model"
  , outp ++ "_tfidf.mm"
  , outp ++ "_tfidf.mm.index"
  , outp ++ "_lda.model"
  , "wiki_index"
  , outp ++ "_index.index" ]

/-- Whether path `f` is keyed by (begins with) the output path key `k`. -/
def keyedBy (k f : String) : Bool := k.toList.isPrefixOf f.toList

/-- Outcome of running `make_data.py`'s `__main__` block up to the point
where corpus processing starts.  `usageExit c` means the usage docstring
was printed and `sys.exit(c)` raised (lines 69-71); `fatalDirMissing`
means `raise SystemExit(...)` fired because the output directory does not
exist (lines 74-75), before any corpus object is constructed; and
`pipelineRun inp outp keep_words nb na kn files` records the pipeline
stage: the parsed arguments, the parameters passed to
`wiki.dictionary.filter_extremes(no_below=nb, no_above=na, keep_n=kn)`
(line 86), and the list of paths written. -/
inductive MainResult where
  | usageExit (code : Nat)
  | fatalDirMissing
  | pipelineRun (inp outp : String) (keep_words : Nat)
      (no_below : Nat) (no_above : ℚ) (keep_n : Nat) (files : List String)
  deriving Repr, DecidableEq

/-- The `keep_words` value parsed from the CLI (`make_data.py` lines
77-80), when the run reaches the pipeline stage. -/
def MainResult.parsedKeepWords : MainResult → Option Nat
  | .pipelineRun _ _ kw _ _ _ _ => some kw
  | _ => none

/-- The `keep_n` actually passed to `filter_extremes` (`make_data.py`
line 86), when the run reaches the pipeline stage. -/
def MainResult.filterKeepN : MainResult → Option Nat
  | .pipelineRun _ _ _ _ _ kn _ => some kn
  | _ => none

/-- The file paths written by the pipeline stage. -/
def MainResult.writtenFiles : MainResult → Option (List String)
  | .pipelineRun _ _ _ _ _ _ fs => some fs
  | _ => none

/-- Embeds Python's `int(...)` applied to a CLI argument
(`make_data.py` line 78) for the decimal numerals the argument is
documented to be: the parsed number when the string is a non-empty
digit string. -/
def parseNat (s : String) : Option Nat :=
  if s.toList ≠ [] ∧ s.toList.all Char.isDigit then
    some (s.toList.foldl (fun n c => n * 10 + (c.toNat - '0'.toNat)) 0)
  else none

/-- Embeds `make_data.py` lines 60-86: `argv` is `sys.argv` (so
`argv.length < 3` means fewer than two positional arguments), `dirs` is
the set of directories that exist on the filesystem (modelling
`os.path.isdir`).  Note the code parses `keep_words` from `sys.argv[3]`
(lines 77-80) but then passes `keep_n=DEFAULT_DICT_SIZE` to
`filter_extremes` (line 86). -/
def mainStep (dirs : List String) (argv : List String) : MainResult :=
  if argv.length < 3 then .usageExit 1
  else
    let inp := argv.getD 1 ""
    let outp := argv.getD 2 ""
    if !(dirs.contains (dirname outp)) then .fatalDirMissing
    else
      let keep_words := if 3 < argv.length then (parseNat (argv.getD 3 "")).getD 0
                        else DEFAULT_DICT_SIZE
      .pipelineRun inp outp keep_words 20 (1/10 : ℚ) DEFAULT_DICT_SIZE
        (outputFiles outp)

/-! ## Vocabulary construction

`make_data.py` line 86 calls `wiki.dictionary.filter_extremes(...)` on a
gensim `Dictionary`; the gensim code itself is not part of this
repository, so the vocabulary data and the filter are modelled from the
specification (§3 "Vocabulary", §4.2 "VocabularyBuilder"). -/

/-- Distinct elements of a list not already in `seen`, keeping the first
occurrence of each, in encounter order. -/
def dedupFirstAux (seen : List String) : List String → List String
  | [] => []
  | w :: ws =>
    if seen.contains w then dedupFirstAux seen ws
    else w :: dedupFirstAux (w :: seen) ws

/-- Distinct elements of a list, keeping the first occurrence of each,
in encounter order (the per-document distinct-token stream of §4.2). -/
def dedupFirst (l : List String) : List String := dedupFirstAux [] l

/-- Stable insertion of `a` into `l`: `a` goes before the first element
`b` with `le a b`, so an element equal to `a` under `le` stays behind
elements inserted earlier.  Used to embed Python's stable `sorted`. -/
def stableInsert (le : α → α → Bool) (a : α) : List α → List α
  | [] => [a]
  | b :: l => if le a b then a :: b :: l else b :: stableInsert le a l

/-- Stable insertion sort, the extensional behaviour of Python's
`sorted(xs, key=..., reverse=...)` for the total boolean comparator
`le`: equal elements keep their original relative order. -/
def stableSort (le : α → α → Bool) : List α → List α
  | [] => []
  | a :: l => stableInsert le a (stableSort le l)

/-- Modelled from the spec (§4.2): one document's contribution to the
document-frequency table, in encounter order — a token already seen has
its count bumped, a new token is appended with count 1. -/
def bumpDf (dfs : List (String × Nat)) (w : String) : List (String × Nat) :=
  if dfs.any (fun p => p.1 == w) then
    dfs.map (fun p => if p.1 = w then (p.1, p.2 + 1) else p)
  else dfs ++ [(w, 1)]

/-- Modelled from the spec (§4.2 "Single streaming pass: increments
per-token document-frequency (count of documents containing the token at
least once, not total occurrences)"): the (token, document-frequency)
table of a corpus, in original encounter order. -/
def docDfs (corpus : List (List String)) : List (String × Nat) :=
  corpus.foldl (fun dfs doc => (dedupFirst doc).foldl bumpDf dfs) []

/-- Modelled from the spec (§4.2 step 1): "drop tokens with document
frequency < no_below". -/
def dropRare (no_below : Nat) (dfs : List (String × Nat)) :
    List (String × Nat) :=
  dfs.filter (fun p => !(p.2 < no_below))

/-- Modelled from the spec (§4.2 step 2): "drop tokens with document
frequency > no_above × total_document_count". -/
def dropCommon (no_above : ℚ) (num_docs : Nat) (dfs : List (String × Nat)) :
    List (String × Nat) :=
  dfs.filter (fun p => !(decide (no_above * num_docs < (p.2 : ℚ))))

/-- Modelled from the spec (§4.2 step 3): "from survivors, keep only the
keep_n most frequent by document frequency, re-assigning dense ids in
descending-frequency order (tie-break: original encounter order)".  The
result lists the kept words in id order (the id of a word is its
position), so the sort is a stable descending sort by frequency. -/
def keepTop (keep_n : Nat) (dfs : List (String × Nat)) : List String :=
  ((stableSort (fun x y => decide (y.2 ≤ x.2)) dfs).take keep_n).map Prod.fst

/-- Modelled from the spec (§4.2 "Filtering order (must be exact, order
affects result)"): `Dictionary.filter_extremes`, as the three steps in
the spec's order.  The resulting vocabulary is the list of kept words;
a word's integer id is its position in the list, so ids are dense in
[0, |V|). -/
def filter_extremes (dfs : List (String × Nat)) (num_docs : Nat)
    (no_below : Nat) (no_above : ℚ) (keep_n : Nat) : List String :=
  keepTop keep_n (dropCommon no_above num_docs (dropRare no_below dfs))

/-- Modelled from the spec (§3 "Vocabulary: bidirectional mapping
word↔integer id ... ids are dense integers in [0, |V|)"): the word→id
direction of a vocabulary; the id of a word is the position of its first
occurrence in the vocabulary list. -/
def token2id (vocab : List String) (w : String) : Option Nat :=
  match vocab with
  | [] => none
  | v :: vs => if v = w then some 0 else (token2id vs w).map (· + 1)

/-- Modelled from the spec (§4.3 "BagOfWordsEncoder": "Counts occurrences
per token, maps through vocab, silently drops tokens absent from vocab
(out-of-vocabulary), emits one (id, count) pair per distinct retained
token"): gensim's `Dictionary.doc2bow`, which returns the pairs sorted by
term id. -/
def doc2bow (document : List String) (vocab : List String) :
    List (Nat × Nat) :=
  stableSort (fun x y => decide (x.1 ≤ y.1))
    ((dedupFirst document).filterMap
      (fun w => (token2id vocab w).map (fun i => (i, document.count w))))

/-! ## Topic model

`service.py` loads a gensim `LdaModel`; the gensim model code is not part
of this repository, so the model is abstracted from the specification
(§4.6 "TopicModel"). -/

/-- Modelled from the spec (§4.6): a trained topic model.  `num_topics`
is fixed post-training; `topicTerms t` is topic `t`'s weight for each
vocabulary word (one entry per word of the model's training vocabulary,
so its length is `num_terms`); `get_document_topics` is `infer` (what
`lda[bow]` calls), returning only topics above the pruning epsilon, so on
the all-zero (empty) vector it returns the empty distribution (§8
"TopicModel.infer on a vector of all zeros returns an empty topic
distribution"). -/
structure LdaModel where
  num_topics : Nat
  num_terms : Nat
  topicTerms : Nat → List (String × ℚ)
  get_document_topics : List (Nat × Nat) → List (Nat × ℚ)
  topicTerms_length : ∀ t, (topicTerms t).length = num_terms
  get_document_topics_nil : get_document_topics [] = []

/-- Modelled from the spec (§4.6 "show_topic(topic_id, top_n) → ordered
sequence of (word, weight) sorted descending by weight" and §8
"show_topic(k, n) always returns exactly n words (or fewer if |V| < n)"):
the `top_n` heaviest words of a topic, in descending weight order, ties
broken by word position (stable sort).  gensim's `LdaModel.show_topic`
defaults `top_n` to 10, which is how `service.py` line 67 calls it. -/
def show_topic (m : LdaModel) (tid : Nat) (top_n : Nat) :
    List (String × ℚ) :=
  ((stableSort (fun x y => decide (y.2 ≤ x.2)) (m.topicTerms tid)).take top_n)

/-! ## Online service: `service.py` -/

/-- Modelled from gensim's `simple_tokenize` as described by the spec
(§4.1: splitting on non-letter boundaries): accumulate the current
alphabetic run (in reverse) and emit it at each non-letter boundary. -/
def tokenizeAux : List Char → List Char → List String
  | acc, [] => if acc.isEmpty then [] else [String.mk acc.reverse]
  | acc, c :: cs =>
    if c.isAlpha then tokenizeAux (c :: acc) cs
    else if acc.isEmpty then tokenizeAux [] cs
    else String.mk acc.reverse :: tokenizeAux [] cs

/-- Embeds `gensim.utils.simple_tokenize(text)` (`service.py` line 60):
the maximal alphabetic runs of the text, in order. -/
def tokenize (s : String) : List String := tokenizeAux [] s.toList

/-- Embeds the class attributes of `TopicService` (`service.py` lines
35-37): the vocabulary `id2word` (a word list, id = position), the
memory-mapped corpus `corpus` (loaded but never read by any handler),
and the topic model `lda`, all loaded once at process start. -/
structure TopicService where
  id2word : List String
  corpus : List (List (Nat × ℚ))
  lda : LdaModel

/-- Body of an incoming `POST /topic` request as `await request.json()`
sees it: either not decodable as JSON (in which case `request.json()`
raises), or a decoded JSON object, modelled as its string-valued fields. -/
inductive ReqBody where
  | malformed
  | json (fields : List (String × String))

/-- An HTTP response of the `topic` handler before serialization: the
status code and the `"data"` list of `(topic_id, weight, top_words)`
entries (`service.py` line 69). -/
structure TopicResponse where
  status : Nat
  data : List (Nat × ℚ × List (String × ℚ))

/-- Embeds the `GET /` handler `index` (`service.py` lines 50-52): it
reads nothing and returns the 200 response with body `"topic"`.  The
returned state is the state after the request. -/
def TopicService.indexRoute (s : TopicService) :
    TopicService × (Nat × String) :=
  (s, (200, "topic"))

/-- Embeds the `POST /topic` handler `topic` (`service.py` lines 54-69).
`await request.json()` raises on a malformed body (no `try` in the
handler, so the exception propagates: `Except.error`).  Otherwise
`data.get("text", "")` defaults a missing `"text"` field to the empty
string; the text is tokenized, encoded against the frozen `id2word`,
pushed through `lda[bow]`, the topics are sorted by weight descending
(Python's stable `sorted(..., key=lambda x: x[1], reverse=True)`), and
each topic is paired with `lda.show_topic(t[0])` (default `top_n = 10`).
The returned state is the state after the request. -/
def TopicService.topicRoute (s : TopicService) (body : ReqBody) :
    TopicService × Except Unit TopicResponse :=
  match body with
  | .malformed => (s, .error ())
  | .json fields =>
    let text := (fields.lookup "text").getD ""
    let doc := tokenize text
    let bow := doc2bow doc s.id2word
    let doc_lda := s.lda.get_document_topics bow
    let topics := stableSort (fun x y => decide (y.2 ≤ x.2)) doc_lda
    let topic_data := topics.map (fun t => (t.1, t.2, show_topic s.lda t.1 10))
    (s, .ok ⟨200, topic_data⟩)

/-- A request the service can receive: `GET /` or `POST /topic` with a
body. -/
inductive Request where
  | root
  | topicReq (body : ReqBody)

/-- The state of the service after handling one request. -/
def handle (s : TopicService) : Request → TopicService
  | .root => (s.indexRoute).1
  | .topicReq b => (s.topicRoute b).1

/-- The state of the service after handling a sequence of requests. -/
def handleAll (s : TopicService) (rs : List Request) : TopicService :=
  rs.foldl handle s

/-! ## Concrete instances for witnesses and counterexamples -/

/-- The 4-document corpus of the spec's filtering-order scenario (§8):
token `"a"` appears in 3 documents, `"b"` in 2, `"c"` in 1. -/
def scenarioCorpus : List (List String) :=
  [["a", "b"], ["a", "b"], ["a", "c"], []]

/-- A small concrete topic model over the two-word vocabulary
`["cat", "dog"]`, with two topics, used to evaluate the handlers at
concrete inputs. -/
def toyLda : LdaModel where
  num_topics := 2
  num_terms := 2
  topicTerms := fun _ => [("cat", 3/5), ("dog", 2/5)]
  get_document_topics := fun bow =>
    match bow with
    | [] => []
    | _ => [(1, 1/4), (0, 3/4)]
  topicTerms_length := fun _ => rfl
  get_document_topics_nil := rfl

/-- A concrete service state holding `toyLda`, used to evaluate the
handlers at concrete inputs. -/
def toyService : TopicService where
  id2word := ["cat", "dog"]
  corpus := []
  lda := toyLda

/-! ## Helper lemmas -/

theorem stableInsert_perm (le : α → α → Bool) (a : α) (l : List α) :
    (stableInsert le a l).Perm (a :: l) := by
  induction l with
  | nil => simp [stableInsert]
  | cons b l ih =>
    simp only [stableInsert]
    by_cases h : le a b
    · simp [h]
    · rw [if_neg h]
      exact (ih.cons b).trans (List.Perm.swap a b l)

theorem stableSort_perm (le : α → α → Bool) (l : List α) :
    (stableSort le l).Perm l := by
  induction l with
  | nil => simp [stableSort]
  | cons a l ih =>
    exact (stableInsert_perm le a (stableSort le l)).trans (ih.cons a)

theorem mem_stableSort (le : α → α → Bool) (l : List α) (x : α) :
    x ∈ stableSort le l ↔ x ∈ l :=
  (stableSort_perm le l).mem_iff

theorem length_stableSort (le : α → α → Bool) (l : List α) :
    (stableSort le l).length = l.length :=
  (stableSort_perm le l).length_eq

theorem pairwise_stableInsert (le : α → α → Bool)
    (total : ∀ a b, le a b = true ∨ le b a = true)
    (trans : ∀ a b c, le a b = true → le b c = true → le a c = true)
    (a : α) (l : List α)
    (h : l.Pairwise (fun x y => le x y = true)) :
    (stableInsert le a l).Pairwise (fun x y => le x y = true) := by
  induction l with
  | nil => simp [stableInsert]
  | cons b l ih =>
    rcases List.pairwise_cons.mp h with ⟨hb, hl⟩
    simp only [stableInsert]
    by_cases hab : le a b = true
    · rw [if_pos hab]
      refine List.pairwise_cons.mpr ⟨?_, h⟩
      intro x hx
      rcases List.mem_cons.mp hx with rfl | hx
      · exact hab
      · exact trans a b x hab (hb x hx)
    · rw [if_neg hab]
      refine List.pairwise_cons.mpr ⟨?_, ih hl⟩
      intro x hx
      rcases List.mem_cons.mp ((stableInsert_perm le a l).mem_iff.mp hx) with rfl | hx
      · rcases total x b with h' | h'
        · exact absurd h' hab
        · exact h'
      · exact hb x hx

theorem pairwise_stableSort (le : α → α → Bool)
    (total : ∀ a b, le a b = true ∨ le b a = true)
    (trans : ∀ a b c, le a b = true → le b c = true → le a c = true)
    (l : List α) :
    (stableSort le l).Pairwise (fun x y => le x y = true) := by
  induction l with
  | nil => simp [stableSort]
  | cons a l ih => exact pairwise_stableInsert le total trans a _ ih

theorem pairwise_stableSort_key {α : Type} (k : α → ℚ) (l : List α) :
    (stableSort (fun x y => decide (k y ≤ k x)) l).Pairwise
      (fun x y => k y ≤ k x) := by
  have hp := pairwise_stableSort (fun x y => decide (k y ≤ k x))
    (fun a b => by
      rcases le_total (k b) (k a) with h' | h'
      · exact Or.inl (decide_eq_true h')
      · exact Or.inr (decide_eq_true h'))
    (fun a b c hab hbc =>
      decide_eq_true (le_trans (of_decide_eq_true hbc) (of_decide_eq_true hab)))
    l
  exact hp.imp (fun h => of_decide_eq_true h)

theorem mem_dedupFirstAux (l : List String) :
    ∀ (seen : List String) (x : String),
      x ∈ dedupFirstAux seen l ↔ x ∈ l ∧ x ∉ seen := by
  induction l with
  | nil => intro seen x; simp [dedupFirstAux]
  | cons w ws ih =>
    intro seen x
    simp only [dedupFirstAux]
    by_cases hw : seen.contains w
    · rw [if_pos hw]
      rw [ih seen x]
      have hwseen : w ∈ seen := by
        simpa using hw
      constructor
      · rintro ⟨hx, hxs⟩
        exact ⟨List.mem_cons_of_mem w hx, hxs⟩
      · rintro ⟨hx, hxs⟩
        rcases List.mem_cons.mp hx with rfl | hx
        · exact absurd hwseen hxs
        · exact ⟨hx, hxs⟩
    · rw [if_neg hw]
      have hwseen : w ∉ seen := by
        simpa using hw
      constructor
      · intro hx
        rcases List.mem_cons.mp hx with rfl | hx
        · exact ⟨List.mem_cons_self x ws, hwseen⟩
        · rcases (ih (w :: seen) x).mp hx with ⟨hx', hxs⟩
          exact ⟨List.mem_cons_of_mem w hx',
            fun hc => hxs (List.mem_cons_of_mem w hc)⟩
      · rintro ⟨hx, hxs⟩
        rcases List.mem_cons.mp hx with rfl | hx
        · exact List.mem_cons_self x _
        · by_cases hxw : x = w
          · subst hxw; exact List.mem_cons_self x _
          · refine List.mem_cons_of_mem w ((ih (w :: seen) x).mpr ⟨hx, ?_⟩)
            intro hc
            rcases List.mem_cons.mp hc with h' | h'
            · exact hxw h'
            · exact hxs h'

theorem mem_dedupFirst (l : List String) (x : String) :
    x ∈ dedupFirst l ↔ x ∈ l := by
  rw [dedupFirst, mem_dedupFirstAux]
  simp

theorem nodup_dedupFirstAux (l : List String) :
    ∀ seen : List String, (dedupFirstAux seen l).Nodup := by
  induction l with
  | nil => intro seen; simp [dedupFirstAux]
  | cons w ws ih =>
    intro seen
    simp only [dedupFirstAux]
    by_cases hw : seen.contains w
    · rw [if_pos hw]; exact ih seen
    · rw [if_neg hw]
      refine List.nodup_cons.mpr ⟨?_, ih (w :: seen)⟩
      intro hc
      exact ((mem_dedupFirstAux ws (w :: seen) w).mp hc).2
        (List.mem_cons_self w seen)

theorem nodup_dedupFirst (l : List String) : (dedupFirst l).Nodup :=
  nodup_dedupFirstAux l []

theorem token2id_some (vocab : List String) (w : String) :
    ∀ i, token2id vocab w = some i →
      i < vocab.length ∧ vocab[i]? = some w := by
  induction vocab with
  | nil => intro i h; simp [token2id] at h
  | cons v vs ih =>
    intro i h
    simp only [token2id] at h
    by_cases hv : v = w
    · rw [if_pos hv] at h
      cases h
      subst hv
      simp
    · rw [if_neg hv] at h
      rcases Option.map_eq_some'.mp h with ⟨j, hj, rfl⟩
      rcases ih j hj with ⟨hlt, hget⟩
      exact ⟨Nat.succ_lt_succ hlt, by simpa using hget⟩

theorem token2id_injOn (vocab : List String) (w w' : String) (i : Nat)
    (h : token2id vocab w = some i) (h' : token2id vocab w' = some i) :
    w = w' := by
  rcases token2id_some vocab w i h with ⟨_, hg⟩
  rcases token2id_some vocab w' i h' with ⟨_, hg'⟩
  rw [hg] at hg'
  exact Option.some.inj hg'

theorem token2id_none (vocab : List String) (w : String) :
    token2id vocab w = none ↔ w ∉ vocab := by
  induction vocab with
  | nil => simp [token2id]
  | cons v vs ih =>
    simp only [token2id]
    by_cases hv : v = w
    · rw [if_pos hv]
      simp [hv]
    · rw [if_neg hv]
      simp only [Option.map_eq_none', ih, List.mem_cons]
      constructor
      · intro h hc
        rcases hc with rfl | hc
        · exact hv rfl
        · exact h hc
      · intro h hc
        exact h (Or.inr hc)

theorem handle_fixes_state (s : TopicService) (r : Request) : handle s r = s := by
  cases r with
  | root => rfl
  | topicReq b => cases b <;> rfl

theorem handleAll_fixes_state (rs : List Request) :
    ∀ s : TopicService, handleAll s rs = s := by
  induction rs with
  | nil => intro s; rfl
  | cons r rs ih =>
    intro s
    show List.foldl handle (handle s r) rs = s
    rw [handle_fixes_state]
    exact ih s

/-! ## Claim theorems -/

/-- C10: a GET request to the root path `/` is answered with HTTP status
200 and response body `"topic"` (`service.py` lines 50-52), with the
service state unchanged. -/
theorem C10_root_route_returns_200_topic (s : TopicService) :
    s.indexRoute = (s, (200, "topic")) := rfl

/-- C8: the loaded `id2word`, `corpus` and `lda` are read-only for the
request handlers: after any sequence of `GET /` and `POST /topic`
requests the three loaded structures are exactly the startup ones
(`service.py` lines 35-37 and 50-69 contain no assignment to them). -/
theorem C8_loaded_state_never_mutated (s : TopicService) (rs : List Request) :
    (handleAll s rs).id2word = s.id2word ∧
      (handleAll s rs).corpus = s.corpus ∧
      (handleAll s rs).lda = s.lda := by
  rw [handleAll_fixes_state rs s]
  exact ⟨rfl, rfl, rfl⟩

/-- C7: invoked with fewer than two positional arguments (so
`sys.argv` has length < 3) the CLI prints the usage message and exits
with code 1; with both arguments present but the directory component of
`OUTPUT_PREFIX` not an existing directory, it aborts with a fatal
`SystemExit` before any corpus processing begins (`make_data.py` lines
69-75). -/
theorem C7_usage_exit_and_dir_check (dirs argv : List String) :
    (argv.length < 3 → mainStep dirs argv = MainResult.usageExit 1) ∧
    (3 ≤ argv.length →
      dirs.contains (dirname (argv.getD 2 "")) = false →
      mainStep dirs argv = MainResult.fatalDirMissing) := by
  constructor
  · intro h
    simp [mainStep, h]
  · intro h hdir
    have h3 : ¬ argv.length < 3 := by omega
    have hmem : dirname (argv.getD 2 "") ∉ dirs := by
      simpa using hdir
    simp only [mainStep, if_neg h3]
    simp
    simpa using hmem

/-- Witness for C7 at concrete inputs: a bare invocation exits with
usage code 1, and an invocation whose output path points into a
non-existent directory aborts fatally. -/
theorem C7_witness :
    mainStep [] ["make_data.py"] = MainResult.usageExit 1 ∧
    mainStep [] ["make_data.py", "dump.xml.bz2", "out/wiki"] =
      MainResult.fatalDirMissing :=
  ⟨(C7_usage_exit_and_dir_check [] ["make_data.py"]).1 (by decide),
   (C7_usage_exit_and_dir_check [] ["make_data.py", "dump.xml.bz2", "out/wiki"]).2
     (by decide) (by decide)⟩

/-- C1 (failing input): invoking the build CLI as
`make_data.py dump.xml.bz2 out/wiki 400000` (with directory `out`
existing) parses `keep_words = 400000` from the third positional
argument, yet the `keep_n` passed to `filter_extremes` on line 86 is
`DEFAULT_DICT_SIZE = 100000`, not the user-supplied 400000: the
`VOCAB_SIZE` argument is parsed and then ignored, contradicting the
script's own docstring ("`VOCABULARY_SIZE` controls how many of the most
frequent words to keep"). -/
theorem C1_vocab_size_argument_ignored :
    (mainStep ["out"]
        ["make_data.py", "dump.xml.bz2", "out/wiki", "400000"]).parsedKeepWords =
      some 400000 ∧
    (mainStep ["out"]
        ["make_data.py", "dump.xml.bz2", "out/wiki", "400000"]).filterKeepN =
      some DEFAULT_DICT_SIZE ∧
    DEFAULT_DICT_SIZE ≠ 400000 := by
  exact ⟨by decide, by decide, by decide⟩

/-- C4 (failing input): running the pipeline with
`OUTPUT_PREFIX = "out/wiki"` writes the document-id → title map to the
hardcoded relative path `doc_index.pickle.bz2` (`make_data.py` line 93),
which does not begin with the `OUTPUT_PREFIX`, contradicting the
script's own docstring (`OUTPUT_PREFIX_docmap.pkl.bz2`). -/
theorem C4_docmap_not_keyed_by_output_prefix :
    (mainStep ["out"] ["make_data.py", "dump.xml.bz2", "out/wiki"]).writtenFiles =
      some (outputFiles "out/wiki") ∧
    "doc_index.pickle.bz2" ∈ outputFiles "out/wiki" ∧
    keyedBy "out/wiki" "doc_index.pickle.bz2" = false := by
  exact ⟨by decide, by decide, by decide⟩

/-- C2: `filter_extremes` applies the three filtering steps in the
spec's exact order — drop document frequency < `no_below`, then drop
document frequency > `no_above` × number of documents, then keep the
`keep_n` most frequent survivors with dense ids reassigned in
descending-frequency order (stable, so ties keep encounter order) — and
on the 4-document scenario corpus with `no_below = 2`,
`no_above = 1/2`, `keep_n = 1` the resulting vocabulary is exactly the
single word `"b"` with id 0. -/
theorem C2_filter_order_and_scenario :
    (∀ (dfs : List (String × Nat)) (num_docs no_below : Nat)
        (no_above : ℚ) (keep_n : Nat),
      filter_extremes dfs num_docs no_below no_above keep_n =
        keepTop keep_n (dropCommon no_above num_docs (dropRare no_below dfs))) ∧
    docDfs scenarioCorpus = [("a", 3), ("b", 2), ("c", 1)] ∧
    scenarioCorpus.length = 4 ∧
    filter_extremes (docDfs scenarioCorpus) scenarioCorpus.length 2 (1/2) 1 =
      ["b"] ∧
    token2id
      (filter_extremes (docDfs scenarioCorpus) scenarioCorpus.length 2 (1/2) 1)
      "b" = some 0 := by
  exact ⟨fun _ _ _ _ _ => rfl, by decide, rfl,
    by with_unfolding_all decide, by with_unfolding_all decide⟩

/-- C3 counterexample: at the concrete malformed-JSON request the
`topic` handler propagates the exception that `await request.json()`
raises (`service.py` line 56 has no `try`), so the request is answered
with an error instead of the 200 response with an empty data list the
claim asserts. -/
theorem C3_counterexample_malformed_json_raises :
    toyService.topicRoute ReqBody.malformed = (toyService, Except.error ()) ∧
      (Except.error () : Except Unit TopicResponse) ≠ Except.ok ⟨200, []⟩ :=
  ⟨rfl, fun h => Except.noConfusion h⟩

/-- C3 (amended): a `POST /topic` request whose body is decodable JSON
lacking the `"text"` field, or whose `"text"` is the empty string, is
treated as empty text and answered 200 with an empty data list; a
request whose body is malformed JSON instead makes `await
request.json()` raise, so it is answered with an error, not with 200. -/
theorem C3_missing_or_empty_text_yields_empty_data (s : TopicService)
    (fields : List (String × String))
    (h : fields.lookup "text" = none ∨ fields.lookup "text" = some "") :
    s.topicRoute (ReqBody.json fields) = (s, Except.ok ⟨200, []⟩) ∧
    s.topicRoute ReqBody.malformed = (s, Except.error ()) := by
  refine ⟨?_, rfl⟩
  have htext : (fields.lookup "text").getD "" = "" := by
    rcases h with h | h <;> simp [h]
  simp only [TopicService.topicRoute, htext]
  rw [show doc2bow (tokenize "") s.id2word = [] from rfl,
    s.lda.get_document_topics_nil]
  rfl

/-- Witness for C3's amended theorem: the toy service answers the
no-`"text"`-field request with 200 and an empty data list, and the
malformed request with an error. -/
theorem C3_witness :
    toyService.topicRoute (ReqBody.json []) =
      (toyService, Except.ok ⟨200, []⟩) ∧
    toyService.topicRoute ReqBody.malformed =
      (toyService, Except.error ()) :=
  C3_missing_or_empty_text_yields_empty_data toyService [] (Or.inl rfl)

/-- C5: every `POST /topic` request with a decodable JSON body carrying
a `"text"` string is answered 200 with a data list of
`(topic_id, weight, top_words)` entries sorted by weight in descending
order, each entry carrying that topic's top words (`service.py` lines
63-69). -/
theorem C5_topic_response_sorted_with_top_words (s : TopicService)
    (fields : List (String × String)) (txt : String)
    (h : fields.lookup "text" = some txt) :
    ∃ td, s.topicRoute (ReqBody.json fields) = (s, Except.ok ⟨200, td⟩) ∧
      td.Pairwise (fun x y => y.2.1 ≤ x.2.1) ∧
      ∀ e ∈ td, e.2.2 = show_topic s.lda e.1 10 := by
  refine ⟨(stableSort (fun x y => decide (y.2 ≤ x.2))
      (s.lda.get_document_topics (doc2bow (tokenize txt) s.id2word))).map
      (fun t => (t.1, t.2, show_topic s.lda t.1 10)), ?_, ?_, ?_⟩
  · simp only [TopicService.topicRoute, h, Option.getD_some]
  · exact List.Pairwise.map _ (fun a b hab => hab)
      (pairwise_stableSort_key Prod.snd _)
  · intro e he
    rcases List.mem_map.mp he with ⟨t, _, rfl⟩
    rfl

/-- Witness for C5 at the toy service and the concrete request body
`{"text": "cat"}`. -/
theorem C5_witness :
    ∃ td, toyService.topicRoute (ReqBody.json [("text", "cat")]) =
        (toyService, Except.ok ⟨200, td⟩) ∧
      td.Pairwise (fun x y => y.2.1 ≤ x.2.1) ∧
      ∀ e ∈ td, e.2.2 = show_topic toyService.lda e.1 10 :=
  C5_topic_response_sorted_with_top_words toyService [("text", "cat")] "cat" rfl

/-- C9: in every successful `POST /topic` response, each topic entry's
top-words list has exactly `min 10 |V|` pairs — 10, or fewer only when
the model's vocabulary has fewer than 10 words — sorted descending by
weight, because `service.py` line 67 calls `show_topic` without a count
and gensim's default count is 10. -/
theorem C9_top_words_ten_sorted_descending (s : TopicService)
    (fields : List (String × String)) (txt : String)
    (h : fields.lookup "text" = some txt) :
    ∃ td, s.topicRoute (ReqBody.json fields) = (s, Except.ok ⟨200, td⟩) ∧
      ∀ e ∈ td, e.2.2.length = min 10 s.lda.num_terms ∧
        e.2.2.Pairwise (fun x y => y.2 ≤ x.2) := by
  refine ⟨(stableSort (fun x y => decide (y.2 ≤ x.2))
      (s.lda.get_document_topics (doc2bow (tokenize txt) s.id2word))).map
      (fun t => (t.1, t.2, show_topic s.lda t.1 10)), ?_, ?_⟩
  · simp only [TopicService.topicRoute, h, Option.getD_some]
  · intro e he
    rcases List.mem_map.mp he with ⟨t, _, rfl⟩
    constructor
    · show (show_topic s.lda t.1 10).length = _
      rw [show_topic, List.length_take, length_stableSort,
        s.lda.topicTerms_length]
    · show (show_topic s.lda t.1 10).Pairwise _
      exact List.Pairwise.sublist (List.take_sublist 10 _)
        (pairwise_stableSort_key Prod.snd _)

/-- Witness for C9 at the toy service (vocabulary size 2, so each entry
carries `min 10 2 = 2` words). -/
theorem C9_witness :
    ∃ td, toyService.topicRoute (ReqBody.json [("text", "cat")]) =
        (toyService, Except.ok ⟨200, td⟩) ∧
      ∀ e ∈ td, e.2.2.length = min 10 toyService.lda.num_terms ∧
        e.2.2.Pairwise (fun x y => y.2 ≤ x.2) :=
  C9_top_words_ten_sorted_descending toyService [("text", "cat")] "cat" rfl

/-- C6: encoding any tokenized document against any frozen vocabulary
yields pairs whose term ids all lie in `[0, |V|)`, with pairwise
distinct ids; every pair comes from a token of the document that is in
the vocabulary (so out-of-vocabulary tokens are silently dropped) and
carries that token's occurrence count; and every in-vocabulary token of
the document contributes its `(id, count)` pair. -/
theorem C6_doc2bow_encoding (document vocab : List String) :
    (∀ p ∈ doc2bow document vocab, p.1 < vocab.length) ∧
    ((doc2bow document vocab).map Prod.fst).Nodup ∧
    (∀ p ∈ doc2bow document vocab, ∃ w ∈ document,
        token2id vocab w = some p.1 ∧ p.2 = document.count w) ∧
    (∀ w ∈ document, ∀ i, token2id vocab w = some i →
        (i, document.count w) ∈ doc2bow document vocab) := by
  refine ⟨?_, ?_, ?_, ?_⟩
  · intro p hp
    rcases List.mem_filterMap.mp ((mem_stableSort _ _ p).mp hp) with ⟨w, hw, hf⟩
    rcases Option.map_eq_some'.mp hf with ⟨i, hi, rfl⟩
    exact (token2id_some vocab w i hi).1
  · have hmap : ((dedupFirst document).filterMap
        (fun w => (token2id vocab w).map
          (fun i => (i, document.count w)))).map Prod.fst
        = (dedupFirst document).filterMap (fun w => token2id vocab w) := by
      rw [List.map_filterMap]
      congr 1
      funext w
      cases token2id vocab w <;> rfl
    have hnd : ((dedupFirst document).filterMap
        (fun w => token2id vocab w)).Nodup :=
      List.Nodup.filterMap
        (fun a a' b hb hb' =>
          token2id_injOn vocab a a' b (Option.mem_def.mp hb)
            (Option.mem_def.mp hb'))
        (nodup_dedupFirst document)
    have hperm := (stableSort_perm (fun x y : Nat × Nat => decide (x.1 ≤ y.1))
        ((dedupFirst document).filterMap
          (fun w => (token2id vocab w).map
            (fun i => (i, document.count w))))).map Prod.fst
    exact hperm.symm.nodup (hmap ▸ hnd)
  · intro p hp
    rcases List.mem_filterMap.mp ((mem_stableSort _ _ p).mp hp) with ⟨w, hw, hf⟩
    rcases Option.map_eq_some'.mp hf with ⟨i, hi, rfl⟩
    exact ⟨w, (mem_dedupFirst document w).mp hw, hi, rfl⟩
  · intro w hw i hi
    refine (mem_stableSort _ _ _).mpr
      (List.mem_filterMap.mpr ⟨w, (mem_dedupFirst document w).mpr hw, ?_⟩)
    rw [hi]
    rfl

/-- Witness for C6 at a concrete document and vocabulary: the document
`["cat", "runs", "cat"]` against the frozen vocabulary
`["cat", "dog", "runs"]`. -/
theorem C6_witness :
    (∀ p ∈ doc2bow ["cat", "runs", "cat"] ["cat", "dog", "runs"],
        p.1 < (["cat", "dog", "runs"] : List String).length) ∧
    ((doc2bow ["cat", "runs", "cat"] ["cat", "dog", "runs"]).map
        Prod.fst).Nodup ∧
    (∀ p ∈ doc2bow ["cat", "runs", "cat"] ["cat", "dog", "runs"],
        ∃ w ∈ ["cat", "runs", "cat"],
          token2id ["cat", "dog", "runs"] w = some p.1 ∧
          p.2 = (["cat", "runs", "cat"] : List String).count w) ∧
    (∀ w ∈ ["cat", "runs", "cat"], ∀ i,
        token2id ["cat", "dog", "runs"] w = some i →
        (i, (["cat", "runs", "cat"] : List String).count w) ∈
          doc2bow ["cat", "runs", "cat"] ["cat", "dog", "runs"]) :=
  C6_doc2bow_encoding ["cat", "runs", "cat"] ["cat", "dog", "runs"]

end TopicSpec
